import Mathlib

/-!
Verification development for the XDCR-lag collector
(`src/cbagent/collectors/xdcr_lag.py`).

The collector measures cross-datacenter replication lag: it writes a random
marker key to a source bucket, polls the destination bucket until the key is
visible, deletes the marker from the source, and reports the elapsed time in
milliseconds.  Worker threads run this measurement in an unbounded loop over
all configured buckets.

This file is a shallow embedding of that module.  Time is modelled by rational
clock readings supplied by the environment, the stores are finite maps
`String → Option String`, the destination's replicated contents are an oracle
sequence of read results, the `while True` loops are fueled, and each store
operation performed by a client appears in an explicit event trace.
-/

namespace XdcrLag

/-- Which cluster a client operation targets: the source bucket or the
destination bucket. -/
inductive Side
  | src
  | dst
  deriving DecidableEq

/-- An observable event of one measurement: a store operation issued through a
pooled client (`set`, `get`, `delete`), or a sleep of the given duration in
seconds (`sleep(0.05)` inside the polling loop). -/
inductive Ev
  | set (side : Side) (key value : String)
  | get (side : Side) (key : String)
  | del (side : Side) (key : String)
  | sleep (d : Rat)
  deriving DecidableEq

/-- Failure of a store operation (connection drop, unexpected response); in
Python this is an exception raised by the client call. -/
inductive StoreErr
  | connErr
  deriving DecidableEq

/-- A bucket's key-value contents, as far as the collector observes them. -/
def Store : Type := String → Option String

/-- The empty store. -/
def emptyStore : Store := fun _ => none

/-- Effect of one successfully performed client operation on a store. -/
def applyOp (s : Store) : Ev → Store
  | .set _ k v => fun k' => if k' = k then some v else s k'
  | .del _ k => fun k' => if k' = k then none else s k'
  | _ => s

/-- Python truthiness of `r.value` in `if r.value:` (line 54): an absent value
and an empty string are both falsy; a nonempty string is truthy. -/
def truthy : Option String → Bool
  | none => false
  | some s => !(s == "")

/-- The marker key built from a random hex token:
`key = "xdcr_track_" + uhex()` (line 48, a format-string in the source). -/
def markerKey (token : String) : String := "xdcr_track_" ++ token

/-- The fixed polling interval `sleep(0.05)` (line 57), in seconds
(50 milliseconds). -/
def pollInterval : Rat := 5 / 100

/-- Result of a run of the destination polling loop (lines 52-57) truncated at
its fuel bound:
* `found n` — the `n`-th read (0-based) returned a truthy value and the loop
  exited via `break`;
* `err e n` — the `n`-th read raised a store error, which propagates out of
  the loop;
* `fuelOut` — every read within the fuel bound was falsy; the real loop is
  still running (it has no timeout of its own). -/
inductive PollOut
  | found (n : Nat)
  | err (e : StoreErr) (n : Nat)
  | fuelOut
  deriving DecidableEq

/-- Results of the successive `dst_client.get(key)` calls: for each poll index
a store error (the call raised) or the value the destination holds for the
marker key at that moment (replication is concurrent and external, so the
sequence is an oracle). -/
def Reads : Type := Nat → Except StoreErr (Option String)

/-- An error-free read oracle: the destination value at each poll index. -/
def pureReads (vals : Nat → Option String) : Reads := fun n => .ok (vals n)

/-- Shift the read index of an inner polling outcome back to the numbering of
the enclosing call (the recursion in `pollAux` peels one read off the oracle
per unit of fuel). -/
def pollBump : PollOut → PollOut
  | .found n => .found (n + 1)
  | .err e n => .err e (n + 1)
  | .fuelOut => .fuelOut

/-- The destination polling loop (lines 52-57), fueled:

    while True:
        r = dst_client.get(key)
        if r.value:
            break
        else:
            sleep(0.05)

Returns the outcome together with the trace of events the loop performed
(each `get` on the destination client, and each 50 ms sleep). -/
def pollAux (key : String) (reads : Reads) : Nat → PollOut × List Ev
  | 0 => (.fuelOut, [])
  | fuel + 1 =>
    match reads 0 with
    | .error e => (.err e 0, [.get .dst key])
    | .ok v =>
      if truthy v then
        (.found 0, [.get .dst key])
      else
        let r := pollAux key (fun k => reads (k + 1)) fuel
        (pollBump r.1, .get .dst key :: .sleep pollInterval :: r.2)

/-- The trace produced by a polling loop that exits at the `n`-th read:
`n` falsy reads each followed by a 50 ms sleep, then the final truthy read. -/
def pollTrace (key : String) : Nat → List Ev
  | 0 => [.get .dst key]
  | n + 1 => .get .dst key :: .sleep pollInterval :: pollTrace key n

/-- How many clients are currently checked out of each connection pool.
`get_client` increments a counter, `release_client` decrements it; the
measurement leaves pool capacity intact exactly when it restores the counters
it found. -/
structure Pools where
  srcAcquired : Nat
  dstAcquired : Nat
  deriving DecidableEq

/-- The environment one call of `_measure_lags` runs in: the random hex token
drawn by `uhex()`, injected failures for the source-side `set` and `delete`,
the oracle of destination read results, and the two clock readings `time()`
returns (line 51 and line 58), in seconds. -/
structure Env where
  token : String
  setErr : Bool
  reads : Reads
  delErr : Bool
  t0 : Rat
  t1 : Rat

/-- Everything observable about one (fueled) run of `_measure_lags`:
* `result` — `some (.ok lag)` for a normal return of the measured value in
  milliseconds, `some (.error e)` when a store operation raised, `none` when
  the fuel ran out while the polling loop was still spinning;
* `pools` — the checked-out counters after the call;
* `src` — the source bucket contents after the call;
* `dst` — the destination bucket contents after the call (the call itself
  never writes there; replication is outside the collector);
* `trace` — the client operations and sleeps performed, in order. -/
structure MRes where
  result : Option (Except StoreErr Rat)
  pools : Pools
  src : Store
  dst : Store
  trace : List Ev

/-- Shallow embedding of `XdcrLag._measure_lags` (lines 44-65):

    src_client = src_pool.get_client()
    dst_client = dst_pool.get_client()
    key = "xdcr_track_{}".format(uhex())
    src_client.set(key, key)
    t0 = time()
    while True:
        r = dst_client.get(key)
        if r.value:
            break
        else:
            sleep(0.05)
    t1 = time()
    src_client.delete(key)
    src_pool.release_client(src_client)
    dst_pool.release_client(dst_client)
    return dict with xdcr_lag = (t1 - t0) * 1000  # s -> ms

An exception raised by `set`, by a `get` inside the loop, or by `delete`
propagates immediately: in particular the two `release_client` calls at the
end are skipped on every exceptional path. -/
def measureLags (env : Env) (fuel : Nat) (p : Pools) (src dst : Store) : MRes :=
  let p1 : Pools := ⟨p.srcAcquired + 1, p.dstAcquired⟩
  let p2 : Pools := ⟨p1.srcAcquired, p1.dstAcquired + 1⟩
  let key := markerKey env.token
  if env.setErr then
    ⟨some (.error .connErr), p2, src, dst, []⟩
  else
    let src1 := applyOp src (.set .src key key)
    match pollAux key env.reads fuel with
    | (.found _, tr) =>
      if env.delErr then
        ⟨some (.error .connErr), p2, src1, dst, .set .src key key :: tr⟩
      else
        let src2 := applyOp src1 (.del .src key)
        let p3 : Pools := ⟨p2.srcAcquired - 1, p2.dstAcquired⟩
        let p4 : Pools := ⟨p3.srcAcquired, p3.dstAcquired - 1⟩
        ⟨some (.ok ((env.t1 - env.t0) * 1000)), p4, src2, dst,
          .set .src key key :: (tr ++ [.del .src key])⟩
    | (.err e _, tr) => ⟨some (.error e), p2, src1, dst, .set .src key key :: tr⟩
    | (.fuelOut, tr) => ⟨none, p2, src1, dst, .set .src key key :: tr⟩

/-- A connection pool as built in `XdcrLag.__init__` (lines 26-40): the
constructor arguments that identify it.  (`unlock_gil=False` is additionally
passed for the destination pool; the `Pool` class itself lives outside this
module.) -/
structure Pool where
  bucket : String
  host : String
  username : String
  password : String
  quiet : Bool
  deriving DecidableEq

/-- The collector settings consumed by `__init__`. -/
structure Settings where
  master_node : String
  dest_master_node : String
  rest_password : String
  deriving DecidableEq

/-- Shallow embedding of the pool construction in `XdcrLag.__init__`
(lines 24-41): for each bucket of `get_buckets()`, one source pool on the
master node and one destination pool on the destination master node, both
using the bucket name as username and the shared REST password. -/
def initPools (settings : Settings) (buckets : List String) :
    List (String × Pool × Pool) :=
  buckets.map fun bucket =>
    (bucket,
     ⟨bucket, settings.master_node, bucket, settings.rest_password, true⟩,
     ⟨bucket, settings.dest_master_node, bucket, settings.rest_password, true⟩)

/-- State of one worker thread running `XdcrLag.sample` (lines 67-77):
* `pools` — `self.pools`, the per-bucket pool pairs built by `__init__`;
* `attempt` — how many measurements have been started so far (the injected
  error schedule is indexed by this counter);
* `measured` — the bucket of each measurement started, in order;
* `sink` — the bucket of each sample appended to `self.store`, in order;
* `warnings` — how many exceptions `logger.warn` has logged. -/
structure WState where
  pools : List (String × Pool × Pool)
  attempt : Nat
  measured : List String
  sink : List String
  warnings : Nat
  deriving DecidableEq

/-- The body of the `for bucket, src_pool, dst_pool in self.pools:` loop
(lines 70-75), which runs inside the `try:` of `sample`.  `errAt n` injects a
store error into the `n`-th measurement (counting all measurements of this
worker).  A raised error aborts the rest of the pass and carries the state at
the raise point (`Except.error`); a completed pass returns normally
(`Except.ok`).  A successful measurement appends one sample to the sink. -/
def runPassE (errAt : Nat → Bool) : List (String × Pool × Pool) → WState →
    Except WState WState
  | [], s => .ok s
  | entry :: rest, s =>
    let s1 : WState :=
      { s with attempt := s.attempt + 1, measured := s.measured ++ [entry.1] }
    if errAt s.attempt then
      .error s1
    else
      runPassE errAt rest { s1 with sink := s1.sink ++ [entry.1] }

/-- One iteration of the `while True:` loop of `sample` (lines 68-77): run the
for-loop over all pools inside `try:`; any exception is caught by the
`except Exception as e:` clause and logged (`logger.warn(e)`), after which the
`while` loop continues. -/
def sampleStep (errAt : Nat → Bool) (s : WState) : WState :=
  match runPassE errAt s.pools s with
  | .ok s' => s'
  | .error s' => { s' with warnings := s'.warnings + 1 }

/-- The `while True:` loop of `sample`, truncated after `fuel` iterations
(the real loop never exits on its own). -/
def sampleLoop (errAt : Nat → Bool) : Nat → WState → WState
  | 0, s => s
  | fuel + 1, s => sampleLoop errAt fuel (sampleStep errAt s)

/-- The initial worker state: fresh counters over the pool list built at
construction time. -/
def initWState (pools : List (String × Pool × Pool)) : WState :=
  ⟨pools, 0, [], [], 0⟩

/-- The class constant `NUM_THREADS = 10` (line 19). -/
def NUM_THREADS : Nat := 10

/-- Shallow embedding of thread creation in `XdcrLag.collect` (line 80):
`[Thread(target=self.sample) for _ in range(self.NUM_THREADS)]`.  Each thread
is represented by the bucket/pool list its `sample` loop iterates over —
`self.pools`, the same list for every thread. -/
def collectThreads (pools : List (String × Pool × Pool)) :
    List (List (String × Pool × Pool)) :=
  (List.range NUM_THREADS).map fun _ => pools

/-- The join step `map(lambda t: t.join(), threads)` (line 82, Python 2, so `map` is eager):
given for each thread whether it has exited, `joinAll` says whether the
sequence of `join` calls returns. -/
def joinAll : List Bool → Bool
  | [] => true
  | exited :: rest => exited && joinAll rest

/-- How many of the numbers `start, start+1, ..., start+len-1` the error
schedule marks as failing measurements. -/
def errsIn (errAt : Nat → Bool) : Nat → Nat → Nat
  | _, 0 => 0
  | start, len + 1 => (if errAt start then 1 else 0) + errsIn errAt (start + 1) len

/-- The worker state carried by a pass outcome, whether the pass completed or
was aborted by a raised error. -/
def stateOf : Except WState WState → WState
  | .ok s => s
  | .error s => s

/-- Whether an event mutates the destination bucket (a `set` or `delete`
issued through the destination client). -/
def dstMut : Ev → Bool
  | .set .dst _ _ => true
  | .del .dst _ => true
  | _ => false

/-- Whether an event is a `set` issued through the source client. -/
def srcSet : Ev → Bool
  | .set .src _ _ => true
  | _ => false

/-- Decidable equality of store-operation outcomes, for evaluating concrete
runs. -/
instance {e a : Type} [DecidableEq e] [DecidableEq a] : DecidableEq (Except e a) := fun x y =>
  match x, y with
  | .ok x, .ok y =>
    if h : x = y then isTrue (by rw [h]) else isFalse (by simp [h])
  | .error x, .error y =>
    if h : x = y then isTrue (by rw [h]) else isFalse (by simp [h])
  | .ok _, .error _ => isFalse (by simp)
  | .error _, .ok _ => isFalse (by simp)

/-- A concrete measurement environment in which nothing fails and the first
destination read already sees a truthy value: token `"t"`, clock readings
0 s and 1 s. -/
def envOk : Env := ⟨"t", false, fun _ => .ok (some "xdcr_track_t"), false, 0, 1⟩

/-- A concrete measurement environment whose source `set` raises. -/
def envSetErr : Env := ⟨"t", true, fun _ => .ok none, false, 0, 0⟩

/-- A concrete two-bucket pool list (buckets `"a"` and `"b"`) for exercising
the worker loop. -/
def cexPools : List (String × Pool × Pool) :=
  [("a", ⟨"a", "m", "a", "pw", true⟩, ⟨"a", "d", "a", "pw", true⟩),
   ("b", ⟨"b", "m", "b", "pw", true⟩, ⟨"b", "d", "b", "pw", true⟩)]

/-- An error schedule that fails exactly the first measurement (index 0). -/
def cexErrAt : Nat → Bool := fun n => n == 0

/-! ## Lemmas about the destination polling loop -/

/-- Unfolding `pollAux` one step when the read raises. -/
theorem pollAux_step_err (key : String) (reads : Reads) (fuel : Nat) (e : StoreErr)
    (hr : reads 0 = .error e) :
    pollAux key reads (fuel + 1) = (.err e 0, [.get .dst key]) := by
  simp only [pollAux, hr]

/-- Unfolding `pollAux` one step when the read returns a truthy value. -/
theorem pollAux_step_hit (key : String) (reads : Reads) (fuel : Nat) (v : Option String)
    (hr : reads 0 = .ok v) (ht : truthy v = true) :
    pollAux key reads (fuel + 1) = (.found 0, [.get .dst key]) := by
  simp only [pollAux, hr, ht]
  simp

/-- Unfolding `pollAux` one step when the read returns a falsy value: the loop
sleeps 50 ms and retries on the shifted oracle. -/
theorem pollAux_step_miss (key : String) (reads : Reads) (fuel : Nat) (v : Option String)
    (hr : reads 0 = .ok v) (ht : truthy v = false) :
    pollAux key reads (fuel + 1) =
      (pollBump (pollAux key (fun k => reads (k + 1)) fuel).1,
       .get .dst key :: .sleep pollInterval :: (pollAux key (fun k => reads (k + 1)) fuel).2) := by
  simp only [pollAux, hr, ht]
  simp

/-- If the polling loop exits normally at read `n`, every earlier read
returned a falsy value and read `n` returned a truthy one: the loop stops at
the first read for which `r.value` is truthy. -/
theorem pollAux_found_reads (key : String) :
    ∀ (fuel : Nat) (reads : Reads) (n : Nat),
      (pollAux key reads fuel).1 = PollOut.found n →
      (∀ m, m < n → ∃ v, reads m = .ok v ∧ truthy v = false) ∧
      (∃ v, reads n = .ok v ∧ truthy v = true) := by
  intro fuel
  induction fuel with
  | zero =>
    intro reads n h
    simp [pollAux] at h
  | succ fuel ih =>
    intro reads n h
    cases hr : reads 0 with
    | error e =>
      rw [pollAux_step_err key reads fuel e hr] at h
      simp at h
    | ok v =>
      cases ht : truthy v with
      | true =>
        rw [pollAux_step_hit key reads fuel v hr ht] at h
        simp at h
        subst h
        exact ⟨fun m hm => absurd hm (Nat.not_lt_zero m), ⟨v, hr, ht⟩⟩
      | false =>
        rw [pollAux_step_miss key reads fuel v hr ht] at h
        simp at h
        cases ho : (pollAux key (fun k => reads (k + 1)) fuel).1 with
        | found n' =>
          rw [ho] at h
          simp [pollBump] at h
          subst h
          obtain ⟨hmin, hfin⟩ := ih (fun k => reads (k + 1)) n' ho
          constructor
          · intro m hm
            cases m with
            | zero => exact ⟨v, hr, ht⟩
            | succ m' => exact hmin m' (Nat.lt_of_succ_lt_succ hm)
          · exact hfin
        | err e n' =>
          rw [ho] at h
          simp [pollBump] at h
        | fuelOut =>
          rw [ho] at h
          simp [pollBump] at h

/-- If the polling loop exits normally at read `n`, its event trace is
exactly `n` falsy destination reads, each followed by one 50 ms sleep, and
then the final truthy read. -/
theorem pollAux_found_trace (key : String) :
    ∀ (fuel : Nat) (reads : Reads) (n : Nat),
      (pollAux key reads fuel).1 = PollOut.found n →
      (pollAux key reads fuel).2 = pollTrace key n := by
  intro fuel
  induction fuel with
  | zero =>
    intro reads n h
    simp [pollAux] at h
  | succ fuel ih =>
    intro reads n h
    cases hr : reads 0 with
    | error e =>
      rw [pollAux_step_err key reads fuel e hr] at h
      simp at h
    | ok v =>
      cases ht : truthy v with
      | true =>
        rw [pollAux_step_hit key reads fuel v hr ht] at h ⊢
        simp at h
        subst h
        simp [pollTrace]
      | false =>
        rw [pollAux_step_miss key reads fuel v hr ht] at h ⊢
        simp at h ⊢
        cases ho : (pollAux key (fun k => reads (k + 1)) fuel).1 with
        | found n' =>
          rw [ho] at h
          simp [pollBump] at h
          subst h
          simp [pollTrace]
          exact ih (fun k => reads (k + 1)) n' ho
        | err e n' =>
          rw [ho] at h
          simp [pollBump] at h
        | fuelOut =>
          rw [ho] at h
          simp [pollBump] at h

/-- If reads `0..n` all return values (no store error) and read `n` returns a
truthy value, then fuel `n + 1` suffices for the polling loop to exit
normally, at some read index `≤ n`. -/
theorem pollAux_complete (key : String) :
    ∀ (n : Nat) (reads : Reads),
      (∀ m, m ≤ n → ∃ v, reads m = .ok v) →
      (∀ v, reads n = .ok v → truthy v = true) →
      ∃ m, m ≤ n ∧ (pollAux key reads (n + 1)).1 = PollOut.found m := by
  intro n
  induction n with
  | zero =>
    intro reads h1 h2
    obtain ⟨v, hr⟩ := h1 0 (Nat.le_refl 0)
    exact ⟨0, Nat.le_refl 0, by rw [pollAux_step_hit key reads 0 v hr (h2 v hr)]⟩
  | succ n ih =>
    intro reads h1 h2
    obtain ⟨v0, hr0⟩ := h1 0 (Nat.zero_le _)
    cases ht0 : truthy v0 with
    | true =>
      exact ⟨0, Nat.zero_le _, by rw [pollAux_step_hit key reads (n + 1) v0 hr0 ht0]⟩
    | false =>
      obtain ⟨m, hm, hf⟩ := ih (fun k => reads (k + 1))
        (fun m hmn => h1 (m + 1) (Nat.succ_le_succ hmn))
        (fun v hv => h2 v hv)
      refine ⟨m + 1, Nat.succ_le_succ hm, ?_⟩
      rw [pollAux_step_miss key reads (n + 1) v0 hr0 ht0]
      simp [hf, pollBump]

/-- If every read returns a falsy value, the polling loop never exits: for
every fuel bound it is still spinning. -/
theorem pollAux_never (key : String) :
    ∀ (fuel : Nat) (reads : Reads),
      (∀ n, ∃ v, reads n = .ok v ∧ truthy v = false) →
      (pollAux key reads fuel).1 = PollOut.fuelOut := by
  intro fuel
  induction fuel with
  | zero =>
    intro reads hv
    simp [pollAux]
  | succ fuel ih =>
    intro reads hv
    obtain ⟨v, hr, ht⟩ := hv 0
    have hrec := ih (fun k => reads (k + 1)) (fun n => hv (n + 1))
    rw [pollAux_step_miss key reads fuel v hr ht]
    simp [hrec, pollBump]

/-- Every event in a `pollTrace` is either a `get` of the marker key on the
destination client or a 50 ms sleep. -/
theorem pollTrace_events (key : String) :
    ∀ (n : Nat) (e : Ev), e ∈ pollTrace key n →
      e = Ev.get Side.dst key ∨ e = Ev.sleep pollInterval := by
  intro n
  induction n with
  | zero =>
    intro e he
    simp [pollTrace] at he
    exact Or.inl he
  | succ n ih =>
    intro e he
    simp [pollTrace] at he
    rcases he with he | he | he
    · exact Or.inl he
    · exact Or.inr he
    · exact ih e he

/-- Every event the polling loop performs is either a `get` of the marker key
on the destination client or a 50 ms sleep. -/
theorem pollAux_trace_events (key : String) :
    ∀ (fuel : Nat) (reads : Reads) (e : Ev), e ∈ (pollAux key reads fuel).2 →
      e = Ev.get Side.dst key ∨ e = Ev.sleep pollInterval := by
  intro fuel
  induction fuel with
  | zero =>
    intro reads e he
    simp [pollAux] at he
  | succ fuel ih =>
    intro reads e he
    cases hr : reads 0 with
    | error er =>
      rw [pollAux_step_err key reads fuel er hr] at he
      simp at he
      exact Or.inl he
    | ok v =>
      cases ht : truthy v with
      | true =>
        rw [pollAux_step_hit key reads fuel v hr ht] at he
        simp at he
        exact Or.inl he
      | false =>
        rw [pollAux_step_miss key reads fuel v hr ht] at he
        simp at he
        rcases he with he | he | he
        · exact Or.inl he
        · exact Or.inr he
        · exact ih (fun k => reads (k + 1)) e he

/-! ## Lemmas about `_measure_lags` -/

/-- A normally returning `_measure_lags` call can only have taken the success
path: no store operation raised, the polling loop found the marker at some
read `n`, and the final state is exactly: the measured lag returned, both
clients released (pool counters restored), the marker set and then deleted in
the source store, the destination store untouched, and the trace
`set / polls / delete`. -/
theorem measureLags_ok_shape (env : Env) (fuel : Nat) (p : Pools) (src dst : Store) (x : Rat)
    (h : (measureLags env fuel p src dst).result = some (.ok x)) :
    env.setErr = false ∧ env.delErr = false ∧
    ∃ n, (pollAux (markerKey env.token) env.reads fuel).1 = PollOut.found n ∧
      measureLags env fuel p src dst =
        ⟨some (.ok ((env.t1 - env.t0) * 1000)), p,
         applyOp (applyOp src (.set .src (markerKey env.token) (markerKey env.token)))
           (.del .src (markerKey env.token)),
         dst,
         .set .src (markerKey env.token) (markerKey env.token) ::
           ((pollAux (markerKey env.token) env.reads fuel).2 ++
             [.del .src (markerKey env.token)])⟩ := by
  cases hs : env.setErr with
  | true => simp [measureLags, hs] at h
  | false =>
    cases hp : pollAux (markerKey env.token) env.reads fuel with
    | mk o tr =>
      cases o with
      | found n =>
        cases hd : env.delErr with
        | true => simp [measureLags, hs, hp, hd] at h
        | false =>
          refine ⟨rfl, rfl, n, by simp [hp], ?_⟩
          simp [measureLags, hs, hp, hd]
      | err e n => simp [measureLags, hs, hp] at h
      | fuelOut => simp [measureLags, hs, hp] at h

/-- When `_measure_lags` exits with a store error, neither `release_client`
call has run: both pool counters still show one extra checked-out client. -/
theorem measureLags_err_pools (env : Env) (fuel : Nat) (p : Pools) (src dst : Store)
    (e : StoreErr)
    (h : (measureLags env fuel p src dst).result = some (.error e)) :
    (measureLags env fuel p src dst).pools =
      ⟨p.srcAcquired + 1, p.dstAcquired + 1⟩ := by
  cases hs : env.setErr with
  | true => simp [measureLags, hs]
  | false =>
    cases hp : pollAux (markerKey env.token) env.reads fuel with
    | mk o tr =>
      cases o with
      | found n =>
        cases hd : env.delErr with
        | true => simp [measureLags, hs, hp, hd]
        | false => simp [measureLags, hs, hp, hd] at h
      | err e' n => simp [measureLags, hs, hp]
      | fuelOut => simp [measureLags, hs, hp] at h

/-- Every event a successful `_measure_lags` call performs is the marker
`set` on the source, a `get` of the marker on the destination, a 50 ms sleep,
or the marker `delete` on the source. -/
theorem measureLags_ok_trace_events (env : Env) (fuel : Nat) (p : Pools) (src dst : Store)
    (x : Rat) (h : (measureLags env fuel p src dst).result = some (.ok x)) :
    ∀ e ∈ (measureLags env fuel p src dst).trace,
      e = Ev.set Side.src (markerKey env.token) (markerKey env.token) ∨
      e = Ev.get Side.dst (markerKey env.token) ∨
      e = Ev.sleep pollInterval ∨
      e = Ev.del Side.src (markerKey env.token) := by
  obtain ⟨hs, hd, n, hfound, hshape⟩ := measureLags_ok_shape env fuel p src dst x h
  have htr := pollAux_found_trace (markerKey env.token) fuel env.reads n hfound
  rw [hshape, htr]
  intro e he
  rw [List.mem_cons] at he
  rcases he with he | he
  · exact Or.inl he
  · rw [List.mem_append] at he
    rcases he with he | he
    · rcases pollTrace_events (markerKey env.token) n e he with h1 | h1
      · exact Or.inr (Or.inl h1)
      · exact Or.inr (Or.inr (Or.inl h1))
    · rw [List.mem_singleton] at he
      exact Or.inr (Or.inr (Or.inr he))

/-! ## Lemmas about the worker loop (`sample`) -/

/-- Splitting `errsIn` over adjacent ranges of measurement indices. -/
theorem errsIn_add (errAt : Nat → Bool) :
    ∀ (m start M : Nat),
      errsIn errAt start (m + M) = errsIn errAt start m + errsIn errAt (start + m) M := by
  intro m
  induction m with
  | zero =>
    intro start M
    simp [errsIn]
  | succ m ih =>
    intro start M
    have h1 : m + 1 + M = (m + M) + 1 := by omega
    rw [h1]
    simp only [errsIn]
    rw [ih (start + 1) M]
    have h2 : start + 1 + m = start + (m + 1) := by omega
    rw [h2]
    omega

/-- A for-loop pass over the buckets that completes without error: every
bucket was measured, every measurement appended a sample to the sink, no
warning was logged, the pool list is untouched, and no measurement of the
pass is marked failing by the schedule. -/
theorem runPassE_ok (errAt : Nat → Bool) :
    ∀ (l : List (String × Pool × Pool)) (s s' : WState),
      runPassE errAt l s = .ok s' →
      s'.pools = s.pools ∧
      s'.attempt = s.attempt + l.length ∧
      s'.measured = s.measured ++ l.map (fun e => e.1) ∧
      s'.sink.length = s.sink.length + l.length ∧
      s'.warnings = s.warnings ∧
      errsIn errAt s.attempt l.length = 0 := by
  intro l
  induction l with
  | nil =>
    intro s s' h
    simp [runPassE] at h
    subst h
    simp [errsIn]
  | cons entry rest ih =>
    intro s s' h
    cases he : errAt s.attempt with
    | true =>
      simp only [runPassE, he] at h
      simp at h
    | false =>
      simp only [runPassE, he] at h
      simp at h
      obtain ⟨hp, ha, hm, hs, hw, herrs⟩ := ih _ s' h
      simp at hp ha hm hs hw herrs
      refine ⟨hp, by simp; omega, ?_, by simp; omega, hw, ?_⟩
      · rw [hm]
        simp
      · simp [errsIn, he]
        exact herrs

/-- A for-loop pass aborted by a raised store error: some `m ≥ 1` measurements
were started, the first `m - 1` each appended a sample, exactly the last one
is marked failing by the schedule, and the exception (not yet caught at this
point) has logged no warning; the pool list is untouched. -/
theorem runPassE_error (errAt : Nat → Bool) :
    ∀ (l : List (String × Pool × Pool)) (s s' : WState),
      runPassE errAt l s = .error s' →
      s'.pools = s.pools ∧
      ∃ m, 1 ≤ m ∧ m ≤ l.length ∧
        s'.attempt = s.attempt + m ∧
        s'.sink.length + 1 = s.sink.length + m ∧
        s'.warnings = s.warnings ∧
        errsIn errAt s.attempt m = 1 := by
  intro l
  induction l with
  | nil =>
    intro s s' h
    simp [runPassE] at h
  | cons entry rest ih =>
    intro s s' h
    cases he : errAt s.attempt with
    | true =>
      simp only [runPassE, he] at h
      simp at h
      subst h
      refine ⟨rfl, 1, Nat.le_refl 1, by simp, by simp, by simp, rfl, ?_⟩
      simp [errsIn, he]
    | false =>
      simp only [runPassE, he] at h
      simp at h
      obtain ⟨hp, m, hm1, hm2, ha, hsk, hw, herrs⟩ := ih _ s' h
      simp at hp ha hsk hw herrs
      refine ⟨hp, m + 1, by omega, by simp; omega, by omega, by omega, hw, ?_⟩
      simp [errsIn, he]
      exact herrs

/-- One `while True:` iteration of `sample`: the pool list is preserved, and
for some number `m` of measurements started during the pass, samples + logged
warnings grow by exactly `m`, warnings growing by exactly the number of
schedule-failing measurements among them (the `except` clause logs one
warning per aborted pass). -/
theorem sampleStep_shape (errAt : Nat → Bool) (s : WState) :
    (sampleStep errAt s).pools = s.pools ∧
    ∃ m, (sampleStep errAt s).attempt = s.attempt + m ∧
      (sampleStep errAt s).sink.length + (sampleStep errAt s).warnings
        = s.sink.length + s.warnings + m ∧
      (sampleStep errAt s).warnings = s.warnings + errsIn errAt s.attempt m := by
  cases hr : runPassE errAt s.pools s with
  | ok s' =>
    have hstep : sampleStep errAt s = s' := by simp [sampleStep, hr]
    rw [hstep]
    obtain ⟨hp, ha, hm, hs, hw, herrs⟩ := runPassE_ok errAt s.pools s s' hr
    exact ⟨hp, s.pools.length, ha, by omega, by omega⟩
  | error s' =>
    have hstep : sampleStep errAt s = { s' with warnings := s'.warnings + 1 } := by
      simp [sampleStep, hr]
    rw [hstep]
    obtain ⟨hp, m, hm1, hm2, ha, hsk, hw, herrs⟩ := runPassE_error errAt s.pools s s' hr
    exact ⟨hp, m, ha, by simp; omega, by simp; omega⟩

/-- Any number of `while True:` iterations of `sample`: over the `M`
measurements started, samples appended to the sink plus warnings logged equal
`M`, with warnings counting exactly the schedule-failing measurements; the
pool list built at construction time is never modified. -/
theorem sampleLoop_shape (errAt : Nat → Bool) :
    ∀ (fuel : Nat) (s : WState),
      (sampleLoop errAt fuel s).pools = s.pools ∧
      ∃ M, (sampleLoop errAt fuel s).attempt = s.attempt + M ∧
        (sampleLoop errAt fuel s).sink.length + (sampleLoop errAt fuel s).warnings
          = s.sink.length + s.warnings + M ∧
        (sampleLoop errAt fuel s).warnings = s.warnings + errsIn errAt s.attempt M := by
  intro fuel
  induction fuel with
  | zero =>
    intro s
    exact ⟨rfl, 0, by simp [sampleLoop], by simp [sampleLoop], by simp [sampleLoop, errsIn]⟩
  | succ fuel ih =>
    intro s
    simp only [sampleLoop]
    obtain ⟨hp1, m, ha1, hb1, hw1⟩ := sampleStep_shape errAt s
    obtain ⟨hp2, M, ha2, hb2, hw2⟩ := ih (sampleStep errAt s)
    refine ⟨by rw [hp2, hp1], m + M, ?_, ?_, ?_⟩
    · rw [ha2, ha1]
      omega
    · rw [hb2, ha1] at *
      omega
    · rw [hw2, hw1, ha1]
      rw [errsIn_add errAt m s.attempt M]
      omega

/-- The measured-bucket record only ever grows during a pass. -/
theorem runPassE_measured (errAt : Nat → Bool) :
    ∀ (l : List (String × Pool × Pool)) (s : WState),
      ∃ t, (stateOf (runPassE errAt l s)).measured = s.measured ++ t := by
  intro l
  induction l with
  | nil =>
    intro s
    exact ⟨[], by simp [runPassE, stateOf]⟩
  | cons entry rest ih =>
    intro s
    cases he : errAt s.attempt with
    | true =>
      refine ⟨[entry.1], ?_⟩
      simp [runPassE, he, stateOf]
    | false =>
      obtain ⟨t, ht⟩ := ih { s with
        attempt := s.attempt + 1,
        measured := s.measured ++ [entry.1],
        sink := s.sink ++ [entry.1] }
      refine ⟨entry.1 :: t, ?_⟩
      simp only [runPassE, he]
      simp
      rw [ht]
      simp

/-- Whatever happened in earlier iterations, every new pass measures the
FIRST bucket of the pool list first: after a caught error the loop restarts
from the beginning of `self.pools`, not from the bucket after the failed
one. -/
theorem runPassE_starts_at_head (errAt : Nat → Bool) (entry : String × Pool × Pool)
    (rest : List (String × Pool × Pool)) (s : WState) :
    ∃ t, (stateOf (runPassE errAt (entry :: rest) s)).measured =
      s.measured ++ entry.1 :: t := by
  cases he : errAt s.attempt with
  | true =>
    refine ⟨[], ?_⟩
    simp [runPassE, he, stateOf]
  | false =>
    obtain ⟨t2, ht2⟩ := runPassE_measured errAt rest { s with
      attempt := s.attempt + 1,
      measured := s.measured ++ [entry.1],
      sink := s.sink ++ [entry.1] }
    refine ⟨t2, ?_⟩
    simp only [runPassE, he]
    simp
    rw [ht2]
    simp

/-! ## Claim theorems -/

/-- C1, counterexample: the claim "each client obtained via `get_client` is
released back to its pool on every exit path, so pool capacity is unchanged"
is false on the code.  Concretely, when the source `set` raises, both clients
were obtained but the call exits with the pool counters showing one extra
checked-out client per pool: starting from `⟨0, 0⟩` checked out, the call
ends with a store error and pool counters `≠ ⟨0, 0⟩` (they are `⟨1, 1⟩`). -/
theorem claim_C1_counterexample :
    (measureLags envSetErr 0 ⟨0, 0⟩ emptyStore emptyStore).result =
      some (.error .connErr) ∧
    (measureLags envSetErr 0 ⟨0, 0⟩ emptyStore emptyStore).pools ≠ ⟨0, 0⟩ := by
  constructor
  · rfl
  · decide

/-- C1, amended: on the normal return path of `_measure_lags` both clients
are released and the pool counters are restored exactly; on an exceptional
exit raised by a store operation (`set`, `get`, or `delete`) neither client
is released, so each pool permanently shows one more checked-out client. -/
theorem claim_C1_amended (env : Env) (fuel : Nat) (p : Pools) (src dst : Store) :
    (∀ x : Rat, (measureLags env fuel p src dst).result = some (.ok x) →
      (measureLags env fuel p src dst).pools = p) ∧
    (∀ e : StoreErr, (measureLags env fuel p src dst).result = some (.error e) →
      (measureLags env fuel p src dst).pools = ⟨p.srcAcquired + 1, p.dstAcquired + 1⟩) := by
  constructor
  · intro x h
    obtain ⟨_, _, n, _, hshape⟩ := measureLags_ok_shape env fuel p src dst x h
    rw [hshape]
  · intro e h
    exact measureLags_err_pools env fuel p src dst e h

/-- Witness for C1 amended: a concrete successful run restores the pool
counters `⟨2, 3⟩`, and a concrete failing run leaves `⟨5, 5⟩` at `⟨6, 6⟩`. -/
theorem claim_C1_amended_witness :
    (measureLags envOk 1 ⟨2, 3⟩ emptyStore emptyStore).pools = ⟨2, 3⟩ ∧
    (measureLags envSetErr 0 ⟨5, 5⟩ emptyStore emptyStore).pools = ⟨6, 6⟩ :=
  ⟨(claim_C1_amended envOk 1 ⟨2, 3⟩ emptyStore emptyStore).1
      ((envOk.t1 - envOk.t0) * 1000) rfl,
   (claim_C1_amended envSetErr 0 ⟨5, 5⟩ emptyStore emptyStore).2 .connErr rfl⟩

/-- C2: every normally returning `_measure_lags` call performs exactly one
`set` of the marker key (with the key itself as value) on the source client,
then some number of destination polls of that same key, then one `delete` of
that key on the source client, in this order; afterwards the marker key no
longer exists in the source store. -/
theorem claim_C2 (env : Env) (fuel : Nat) (p : Pools) (src dst : Store) (x : Rat)
    (h : (measureLags env fuel p src dst).result = some (.ok x)) :
    ∃ n,
      (measureLags env fuel p src dst).trace =
        .set .src (markerKey env.token) (markerKey env.token) ::
          (pollTrace (markerKey env.token) n ++ [.del .src (markerKey env.token)]) ∧
      ((measureLags env fuel p src dst).trace.countP srcSet) = 1 ∧
      (measureLags env fuel p src dst).src (markerKey env.token) = none := by
  obtain ⟨hs, hd, n, hfound, hshape⟩ := measureLags_ok_shape env fuel p src dst x h
  have htr := pollAux_found_trace (markerKey env.token) fuel env.reads n hfound
  have hz : (pollTrace (markerKey env.token) n).countP srcSet = 0 := by
    apply List.countP_eq_zero.mpr
    intro e he
    rcases pollTrace_events (markerKey env.token) n e he with h1 | h1 <;>
      simp [h1, srcSet]
  refine ⟨n, ?_, ?_, ?_⟩
  · rw [hshape, htr]
  · rw [hshape, htr]
    simp [List.countP_cons, List.countP_append, hz, srcSet]
  · rw [hshape]
    simp [applyOp]

/-- Witness for C2: in a concrete successful run the trace holds exactly one
source `set` and the marker key is absent from the final source store. -/
theorem claim_C2_witness :
    ((measureLags envOk 1 ⟨0, 0⟩ emptyStore emptyStore).trace.countP srcSet) = 1 ∧
    (measureLags envOk 1 ⟨0, 0⟩ emptyStore emptyStore).src (markerKey "t") = none := by
  obtain ⟨n, h1, h2, h3⟩ := claim_C2 envOk 1 ⟨0, 0⟩ emptyStore emptyStore
    ((envOk.t1 - envOk.t0) * 1000) rfl
  exact ⟨h2, h3⟩

/-- C3: the destination polling loop exits normally exactly when some
destination read eventually returns a truthy value; when it exits at read
`n`, its trace is `n` falsy reads each followed by one fixed 50 ms sleep and
then the final truthy read (and `n` is the first truthy index); and if no
read is ever truthy, the loop is still spinning after every fuel bound — it
has no timeout or poll limit of its own. -/
theorem claim_C3 (key : String) (vals : Nat → Option String) :
    ((∃ fuel n, (pollAux key (pureReads vals) fuel).1 = PollOut.found n) ↔
      (∃ n, truthy (vals n) = true)) ∧
    (∀ fuel n, (pollAux key (pureReads vals) fuel).1 = PollOut.found n →
      (pollAux key (pureReads vals) fuel).2 = pollTrace key n ∧
      truthy (vals n) = true ∧ (∀ m, m < n → truthy (vals m) = false)) ∧
    ((∀ n, truthy (vals n) = false) →
      ∀ fuel, (pollAux key (pureReads vals) fuel).1 = PollOut.fuelOut) := by
  refine ⟨⟨?_, ?_⟩, ?_, ?_⟩
  · rintro ⟨fuel, n, hf⟩
    obtain ⟨_, v, hv, htv⟩ := pollAux_found_reads key fuel (pureReads vals) n hf
    have : vals n = v := by
      have h2 : Except.ok (vals n) = (Except.ok v : Except StoreErr (Option String)) := hv
      simpa using h2
    exact ⟨n, this ▸ htv⟩
  · rintro ⟨n, hn⟩
    obtain ⟨m, _, hf⟩ := pollAux_complete key n (pureReads vals)
      (fun m _ => ⟨vals m, rfl⟩)
      (fun v hv => by
        have : vals n = v := by simpa [pureReads] using hv
        exact this ▸ hn)
    exact ⟨n + 1, m, hf⟩
  · intro fuel n hf
    obtain ⟨hmin, v, hv, htv⟩ := pollAux_found_reads key fuel (pureReads vals) n hf
    have hvn : vals n = v := by simpa [pureReads] using hv
    refine ⟨pollAux_found_trace key fuel (pureReads vals) n hf, hvn ▸ htv, ?_⟩
    intro m hm
    obtain ⟨w, hw, htw⟩ := hmin m hm
    have : vals m = w := by simpa [pureReads] using hw
    exact this ▸ htw
  · intro hnever fuel
    exact pollAux_never key fuel (pureReads vals) (fun n => ⟨vals n, rfl, hnever n⟩)

/-- Witness for C3: with a value appearing at read index 1 the loop
terminates for some fuel, and with no value ever appearing the loop is still
spinning after 5 polls. -/
theorem claim_C3_witness :
    (∃ fuel n, (pollAux "k" (pureReads fun j => if j == 1 then some "m" else none) fuel).1 =
      PollOut.found n) ∧
    (pollAux "k" (pureReads fun _ => none) 5).1 = PollOut.fuelOut :=
  ⟨(claim_C3 "k" (fun j => if j == 1 then some "m" else none)).1.mpr ⟨1, by decide⟩,
   (claim_C3 "k" (fun _ => none)).2.2 (fun n => rfl) 5⟩

/-- C4, counterexample: the claim "after an error at iteration `k` the loop
proceeds to iteration `k+1` (the next bucket)" is false on the code.  With
buckets `["a", "b"]` and an error injected into the first measurement
(bucket `"a"`), the `except` clause catches the error outside the `for` loop,
so the next measurement is bucket `"a"` again (a fresh pass from the start of
`self.pools`), not bucket `"b"`: the measured-bucket sequence is
`["a", "a", "b"]`, whose second entry is not `"b"`. -/
theorem claim_C4_counterexample :
    (sampleLoop cexErrAt 2 (initWState cexPools)).measured = ["a", "a", "b"] ∧
    ¬ (sampleLoop cexErrAt 2 (initWState cexPools)).measured.get? 1 = some "b" := by
  decide

/-- C4, amended: over any run of the worker loop in which the first `N`
measurements contain exactly one injected store error, the error is caught at
the worker-loop boundary and logged as one warning, never propagated; exactly
`N - 1` samples reach the sink; the loop never terminates (each caught error
just starts another pass); but after an error the loop abandons the rest of
the current pass and restarts from the FIRST bucket of `self.pools`, not from
the bucket after the failed one. -/
theorem claim_C4_amended (errAt : Nat → Bool) (pools : List (String × Pool × Pool))
    (N fuel : Nat)
    (hN : (sampleLoop errAt fuel (initWState pools)).attempt = N)
    (hone : errsIn errAt 0 N = 1) :
    (sampleLoop errAt fuel (initWState pools)).sink.length = N - 1 ∧
    (sampleLoop errAt fuel (initWState pools)).warnings = 1 ∧
    (∀ s s' : WState, runPassE errAt s.pools s = .error s' →
      sampleStep errAt s = { s' with warnings := s'.warnings + 1 }) ∧
    (∀ (s : WState) entry rest, s.pools = entry :: rest →
      ∃ t, (stateOf (runPassE errAt s.pools s)).measured = s.measured ++ entry.1 :: t) := by
  obtain ⟨hp, M, ha, hb, hw⟩ := sampleLoop_shape errAt fuel (initWState pools)
  have ha0 : (initWState pools).attempt = 0 := rfl
  have hs0 : (initWState pools).sink.length = 0 := rfl
  have hw0 : (initWState pools).warnings = 0 := rfl
  rw [ha0] at ha
  rw [hs0, hw0] at hb
  rw [hw0, ha0] at hw
  have hMN : M = N := by omega
  subst hMN
  rw [hone] at hw
  refine ⟨by omega, by omega, ?_, ?_⟩
  · intro s s' h
    simp [sampleStep, h]
  · intro s entry rest hpe
    rw [hpe]
    exact runPassE_starts_at_head errAt entry rest s

/-- Witness for C4 amended: the concrete two-bucket run with one error among
the first three measurements puts exactly two samples in the sink and logs
exactly one warning. -/
theorem claim_C4_amended_witness :
    (sampleLoop cexErrAt 2 (initWState cexPools)).sink.length = 2 ∧
    (sampleLoop cexErrAt 2 (initWState cexPools)).warnings = 1 := by
  have h := claim_C4_amended cexErrAt cexPools 3 2 (by decide) (by decide)
  exact ⟨h.1, h.2.1⟩

/-- C5: a successful `_measure_lags` call returns exactly the lag
`(t1 - t0) * 1000` (seconds converted to milliseconds), and this value is
nonnegative whenever the clock is monotone (`t0 ≤ t1`). -/
theorem claim_C5 (env : Env) (fuel : Nat) (p : Pools) (src dst : Store) (x : Rat)
    (h : (measureLags env fuel p src dst).result = some (.ok x)) :
    x = (env.t1 - env.t0) * 1000 ∧ (env.t0 ≤ env.t1 → 0 ≤ x) := by
  obtain ⟨_, _, n, _, hshape⟩ := measureLags_ok_shape env fuel p src dst x h
  rw [hshape] at h
  simp at h
  subst h
  refine ⟨rfl, fun hle => ?_⟩
  have hs : (0 : Rat) ≤ env.t1 - env.t0 := by linarith
  positivity

/-- Witness for C5: the lag of a concrete successful run (clocks 0 s and
1 s) is nonnegative. -/
theorem claim_C5_witness :
    (0 : Rat) ≤ (envOk.t1 - envOk.t0) * 1000 :=
  (claim_C5 envOk 1 ⟨0, 0⟩ emptyStore emptyStore
    ((envOk.t1 - envOk.t0) * 1000) rfl).2 (by norm_num [envOk])

/-- C6: `collect` launches exactly `NUM_THREADS = 10` worker threads, each
running the `sample` loop over the same `self.pools` list, and then joins
them all: the sequence of `join` calls returns exactly when every thread has
exited — and since a `sample` worker never exits, joining 10 running workers
never returns. -/
theorem claim_C6 (pools : List (String × Pool × Pool)) (exits : List Bool) :
    NUM_THREADS = 10 ∧
    (collectThreads pools).length = NUM_THREADS ∧
    (∀ t ∈ collectThreads pools, t = pools) ∧
    (joinAll exits = true ↔ ∀ b ∈ exits, b = true) ∧
    joinAll (List.replicate NUM_THREADS false) = false := by
  refine ⟨rfl, by simp [collectThreads], ?_, ?_, by decide⟩
  · intro t ht
    simp [collectThreads] at ht
    exact ht.2
  · induction exits with
    | nil => simp [joinAll]
    | cons b rest ih => simp [joinAll, ih, Bool.and_eq_true]

/-- Witness for C6: the concrete pool list yields `NUM_THREADS` worker
threads, and joining two exited threads returns. -/
theorem claim_C6_witness :
    (collectThreads cexPools).length = NUM_THREADS ∧ joinAll [true, true] = true :=
  ⟨(claim_C6 cexPools []).2.1,
   (claim_C6 cexPools [true, true]).2.2.2.1.mpr (by decide)⟩

/-- C7: the marker-key construction `"xdcr_track_" ++ token` is injective in
the token — two generated keys coincide exactly when the random hex tokens
coincide — so key uniqueness across attempts reduces entirely to uniqueness
of the random tokens. -/
theorem claim_C7 (t1 t2 : String) :
    markerKey t1 = markerKey t2 ↔ t1 = t2 := by
  constructor
  · intro h
    have hd : ("xdcr_track_" ++ t1).data = ("xdcr_track_" ++ t2).data := by
      rw [show ("xdcr_track_" ++ t1) = markerKey t1 from rfl,
        show ("xdcr_track_" ++ t2) = markerKey t2 from rfl, h]
    rw [String.data_append, String.data_append] at hd
    exact String.ext (List.append_cancel_left hd)
  · intro h
    rw [markerKey, markerKey, h]

/-- Witness for C7: two distinct concrete tokens give distinct marker keys. -/
theorem claim_C7_witness : markerKey "a" ≠ markerKey "b" := fun h =>
  absurd ((claim_C7 "a" "b").mp h) (by decide)

/-- C8: the constructor builds exactly one pool pair per bucket of
`get_buckets()`, in order: the source pool on the master node and the
destination pool on the destination master node, each with the bucket name as
username and the shared REST password — and the pool list is never modified
by the worker loop afterwards. -/
theorem claim_C8 (settings : Settings) (buckets : List String) :
    (initPools settings buckets).map (fun e => e.1) = buckets ∧
    (initPools settings buckets).length = buckets.length ∧
    (∀ e ∈ initPools settings buckets,
      e.2.1 = ⟨e.1, settings.master_node, e.1, settings.rest_password, true⟩ ∧
      e.2.2 = ⟨e.1, settings.dest_master_node, e.1, settings.rest_password, true⟩) ∧
    (∀ (errAt : Nat → Bool) (fuel : Nat) (s : WState),
      (sampleLoop errAt fuel s).pools = s.pools) := by
  have hmap : (initPools settings buckets).map (fun e => e.1) = buckets := by
    induction buckets with
    | nil => rfl
    | cons b rest ih =>
      simp only [initPools, List.map_cons] at ih ⊢
      rw [ih]
  refine ⟨hmap, by simp [initPools], ?_, ?_⟩
  · intro e he
    simp [initPools] at he
    obtain ⟨b, hb, rfl⟩ := he
    exact ⟨rfl, rfl⟩
  · intro errAt fuel s
    exact (sampleLoop_shape errAt fuel s).1

/-- Witness for C8: two concrete buckets yield exactly two pool pairs. -/
theorem claim_C8_witness :
    (initPools ⟨"m", "d", "pw"⟩ ["a", "b"]).length = 2 := by
  have h := claim_C8 ⟨"m", "d", "pw"⟩ ["a", "b"]
  simpa using h.2.1

/-- C9: a successful `_measure_lags` call leaves the destination store
exactly as it found it; its trace contains no destination-side mutation, its
only `delete` is the marker key on the source side, and every destination
`get` reads the marker key — the replicated copy on the destination is left
in place. -/
theorem claim_C9 (env : Env) (fuel : Nat) (p : Pools) (src dst : Store) (x : Rat)
    (h : (measureLags env fuel p src dst).result = some (.ok x)) :
    (measureLags env fuel p src dst).dst = dst ∧
    (∀ e ∈ (measureLags env fuel p src dst).trace, dstMut e = false) ∧
    (∀ s k, Ev.del s k ∈ (measureLags env fuel p src dst).trace →
      s = Side.src ∧ k = markerKey env.token) ∧
    (∀ k, Ev.get Side.dst k ∈ (measureLags env fuel p src dst).trace →
      k = markerKey env.token) := by
  obtain ⟨hs, hd, n, hfound, hshape⟩ := measureLags_ok_shape env fuel p src dst x h
  refine ⟨by rw [hshape], ?_, ?_, ?_⟩
  · intro e he
    rcases measureLags_ok_trace_events env fuel p src dst x h e he with h1 | h1 | h1 | h1 <;>
      simp [h1, dstMut]
  · intro s k hk
    rcases measureLags_ok_trace_events env fuel p src dst x h _ hk with h1 | h1 | h1 | h1
    · simp at h1
    · simp at h1
    · simp at h1
    · simp at h1
      exact h1
  · intro k hk
    rcases measureLags_ok_trace_events env fuel p src dst x h _ hk with h1 | h1 | h1 | h1
    · simp at h1
    · simp at h1
      exact h1
    · simp at h1
    · simp at h1

/-- Witness for C9: a concrete successful run returns the destination store
unchanged. -/
theorem claim_C9_witness :
    (measureLags envOk 1 ⟨0, 0⟩ emptyStore emptyStore).dst = emptyStore :=
  (claim_C9 envOk 1 ⟨0, 0⟩ emptyStore emptyStore
    ((envOk.t1 - envOk.t0) * 1000) rfl).1

/-- C10: the polling loop treats a falsy record value exactly like an absent
key: an absent value and the empty string are both falsy, the loop never
exits while the destination only ever returns the empty string (or only
absence), and whenever it does exit the final read's value was truthy. -/
theorem claim_C10 (key : String) :
    truthy none = false ∧ truthy (some "") = false ∧
    (∀ s, s ≠ "" → truthy (some s) = true) ∧
    (∀ fuel, (pollAux key (pureReads fun _ => some "") fuel).1 = PollOut.fuelOut) ∧
    (∀ fuel, (pollAux key (pureReads fun _ => none) fuel).1 = PollOut.fuelOut) ∧
    (∀ (reads : Reads) fuel n, (pollAux key reads fuel).1 = PollOut.found n →
      ∃ v, reads n = .ok v ∧ truthy v = true) := by
  refine ⟨rfl, rfl, ?_, ?_, ?_, ?_⟩
  · intro s hs
    simp [truthy, hs]
  · intro fuel
    exact pollAux_never key fuel _ (fun n => ⟨some "", rfl, rfl⟩)
  · intro fuel
    exact pollAux_never key fuel _ (fun n => ⟨none, rfl, rfl⟩)
  · intro reads fuel n hf
    exact (pollAux_found_reads key fuel reads n hf).2

/-- Witness for C10: with the destination forever returning an empty-string
value, 5 polls are still spinning; and the empty string is falsy. -/
theorem claim_C10_witness :
    (pollAux "k" (pureReads fun _ => some "") 5).1 = PollOut.fuelOut ∧
    truthy (some "") = false :=
  ⟨(claim_C10 "k").2.2.2.1 5, (claim_C10 "k").2.1⟩

end XdcrLag
